import Mathlib

/-
  Verification development for the anyrouter-pool reverse proxy.

  The definitions below are shallow embeddings of the Python source:
    - src/waf_cookie_manager.py : cookie cache state machine, single-flight
      refresh, retry-on-browser-error logic;
    - src/waf_proxy.py : site router, account pool, response classification
      inside the proxy handler, account loading.

  Machine times are modelled as integers (the Python code uses float
  seconds; only comparisons and additions matter here).
-/

set_option maxRecDepth 4000

/-! ## String helpers: substring containment, mirroring the Python in operator -/

/-- Does the first character list occur at the head of the second? -/
def listStarts : List Char → List Char → Bool
  | [], _ => true
  | _ :: _, [] => false
  | a :: as, b :: bs => a == b && listStarts as bs

/-- Does the first character list occur contiguously inside the second? -/
def listHasSub (p : List Char) : List Char → Bool
  | [] => listStarts p []
  | b :: bs => listStarts p (b :: bs) || listHasSub p bs

/-- Python s2 in s1 : does s1 contain s2 as a substring? -/
def containsSub (s pat : String) : Bool :=
  listHasSub pat.toList s.toList

/-! ## WAF cookie cache: state model (src/waf_cookie_manager.py) -/

/-- CookieState enumeration from waf_cookie_manager.py. -/
inductive CookieState where
  | EMPTY
  | VALID
  | EXPIRING
  | EXPIRED
  | REFRESHING
deriving DecidableEq, Repr

/-- Default WAF_COOKIE_TTL (seconds). -/
def WAF_COOKIE_TTL : Int := 2700

/-- Default WAF_COOKIE_REFRESH_BEFORE (seconds). -/
def WAF_COOKIE_REFRESH_BEFORE : Int := 600

/-- The mutable fields of WAFCookieManager that the state machine reads and
writes: the cookie map, its expiry instant, the single-flight flag, whether a
background pre-refresh task is pending, and the hit and miss counters. -/
structure CMState where
  cookies : List (String × String)
  expire_time : Int
  is_refreshing : Bool
  pre_refresh_pending : Bool
  cache_hits : Nat
  cache_misses : Nat
deriving DecidableEq, Repr

/-- WAFCookieManager.state, parameterised by the configured refresh-before
window rb. Order of the checks follows the Python property exactly. -/
def cookieState (rb : Int) (st : CMState) (now : Int) : CookieState :=
  if st.is_refreshing then .REFRESHING
  else if st.cookies.isEmpty then .EMPTY
  else if st.expire_time ≤ now then .EXPIRED
  else if st.expire_time - rb ≤ now then .EXPIRING
  else .VALID

/-- Modelled from the spec wording of section 3: the state as a pure function
of (cookies present?, now, expire_at, refresh_in_flight), with EXPIRING given
by the two-sided window expire_at - rb ≤ now < expire_at. Used only to be
compared against cookieState, which is translated from the code. -/
def cookieStateSpec (rb : Int) (cookiesPresent : Bool) (now expire_at : Int)
    (refresh_in_flight : Bool) : CookieState :=
  if refresh_in_flight then .REFRESHING
  else if !cookiesPresent then .EMPTY
  else if expire_at ≤ now then .EXPIRED
  else if expire_at - rb ≤ now ∧ now < expire_at then .EXPIRING
  else .VALID

/-- The observable action selected by WAFCookieManager.get_cookies before any
refresh work happens: a pure cache hit, a stale return with an optional
background pre-refresh, or a fall-through to the synchronous
single-flight refresh. -/
inductive GetAction where
  | cacheHit (returned : List (String × String))
  | staleWithPreRefresh (returned : List (String × String)) (scheduled : Bool)
  | syncRefresh
deriving DecidableEq, Repr

/-- The branch structure of WAFCookieManager.get_cookies together with the
effect of trigger pre refresh: in the EXPIRING branch a background task is
created only when the single-flight flag is clear and no pre-refresh task is
already pending. -/
def get_cookies_step (rb : Int) (st : CMState) (now : Int) : GetAction × CMState :=
  match cookieState rb st now with
  | .VALID =>
      (.cacheHit st.cookies, { st with cache_hits := st.cache_hits + 1 })
  | .EXPIRING =>
      let sched := !st.is_refreshing && !st.pre_refresh_pending
      (.staleWithPreRefresh st.cookies sched,
       { st with cache_hits := st.cache_hits + 1,
                 pre_refresh_pending := st.pre_refresh_pending || sched })
  | _ =>
      (.syncRefresh, { st with cache_misses := st.cache_misses + 1 })

/-! ## Site router (src/waf_proxy.py, module-level state and functions) -/

/-- One entry of the SITES list. -/
structure Site where
  url : String
  name : String
  use_proxy : Bool
  need_waf : Bool
deriving DecidableEq, Repr

/-- The SITES list from waf_proxy.py: primary plus three mirrors. -/
def SITES : List Site :=
  [ { url := "https://anyrouter.top", name := "主站", use_proxy := true, need_waf := true },
    { url := "https://c.cspok.cn", name := "备用站1", use_proxy := false, need_waf := false },
    { url := "https://pmpjfbhq.cn-nb1.rainapp.top", name := "备用站2", use_proxy := false, need_waf := false },
    { url := "https://a-ocnfniawgw.cn-shanghai.fcapp.run", name := "备用站3", use_proxy := false, need_waf := false } ]

/-- MAX_SITE_FAILS from waf_proxy.py. -/
def MAX_SITE_FAILS : Nat := 3

/-- The two module-level globals current_site_index and site_fail_count. -/
structure SiteRouterState where
  current_site_index : Nat
  site_fail_count : Nat
deriving DecidableEq, Repr

/-- switch_to_next_site: advance modulo the number of sites and reset the
failure counter. -/
def switch_to_next_site (s : SiteRouterState) : SiteRouterState :=
  { current_site_index := (s.current_site_index + 1) % SITES.length,
    site_fail_count := 0 }

/-- record_site_failure: increment the counter, switching when it reaches
MAX_SITE_FAILS. -/
def record_site_failure (s : SiteRouterState) : SiteRouterState :=
  let c := s.site_fail_count + 1
  if MAX_SITE_FAILS ≤ c then switch_to_next_site { s with site_fail_count := c }
  else { s with site_fail_count := c }

/-- record_site_success: reset the failure counter. -/
def record_site_success (s : SiteRouterState) : SiteRouterState :=
  { s with site_fail_count := 0 }

/-- The success branch of the proxy handler: move current_site_index to the
winning site when it differs, then record_site_success. -/
def record_winner (s : SiteRouterState) (site_index : Nat) : SiteRouterState :=
  let s1 := if site_index ≠ s.current_site_index
            then { s with current_site_index := site_index } else s
  record_site_success s1

/-- Every mutation of the site router state in waf_proxy.py: the failure and
success bookkeeping, explicit switch, recovery to the primary (probe and the
two switch-to-primary endpoints), and the winner assignment in the proxy
handler, whose index is always (start_index + tried_sites) mod len(SITES). -/
inductive SiteOp where
  | fail
  | success
  | switchNext
  | recoverPrimary
  | winner (start tried : Nat)
deriving DecidableEq, Repr

/-- Apply one site-router operation. -/
def applySiteOp (s : SiteRouterState) : SiteOp → SiteRouterState
  | .fail => record_site_failure s
  | .success => record_site_success s
  | .switchNext => switch_to_next_site s
  | .recoverPrimary => { current_site_index := 0, site_fail_count := 0 }
  | .winner start tried => record_winner s ((start + tried) % SITES.length)

/-- Run a sequence of site-router operations from the initial state
(index 0, counter 0). -/
def runSiteOps (ops : List SiteOp) : SiteRouterState :=
  ops.foldl applySiteOp { current_site_index := 0, site_fail_count := 0 }

/-- The I-SITE invariant together with index range. -/
def siteInv (s : SiteRouterState) : Prop :=
  s.site_fail_count < MAX_SITE_FAILS ∧ s.current_site_index < SITES.length

/-! ## Response classification in the proxy handler (src/waf_proxy.py, proxy) -/

/-- Outcome of one upstream attempt as classified by the proxy handler. -/
inductive RespClass where
  | success
  | wafRefreshRetry
  | upstreamFault
  | authError
  | capacityWaitRetry
  | capacityAccountError
  | accountError
deriving DecidableEq, Repr

/-- The response-classification ladder of the proxy handler, shared by the
streaming and non-streaming branches. The only difference between the two
branches in the source is the HTML check: the streaming branch treats any
text/html content type as a WAF challenge, while the non-streaming branch
additionally requires status code 200. The 500-with-empty-body check retries
only while attempts remain; the capacity substrings are checked on the raw
body and on its lowercase form. -/
def classifyResponse (isStream needWaf : Bool) (contentType : String)
    (statusCode : Nat) (body : String) (attempt maxRetries : Nat) : RespClass :=
  if containsSub contentType "text/html" && (isStream || statusCode == 200) then
    if needWaf then .wafRefreshRetry else .upstreamFault
  else if statusCode == 401 || statusCode == 403 then .authError
  else if 500 ≤ statusCode then
    if needWaf && (body.trim == "") && decide (attempt + 1 < maxRetries) then
      .wafRefreshRetry
    else if containsSub body "负载已经达到上限" || containsSub body.toLower "rate limit" then
      if attempt == 0 then .capacityWaitRetry else .capacityAccountError
    else .accountError
  else .success

/-- The state update the proxy handler performs for one classified attempt on
site (start_index + tried_sites) mod len(SITES): only a success moves the
router state (winner assignment plus counter reset). -/
def attemptSiteUpdate (s : SiteRouterState) (start tried : Nat)
    (c : RespClass) : SiteRouterState :=
  match c with
  | .success => record_winner s ((start + tried) % SITES.length)
  | _ => s

/-- How the non-streaming success branch renders the body to the client:
JSON passthrough when the content type mentions json, otherwise the raw text
wrapped in a one-field object. -/
inductive NonStreamReturn where
  | jsonBody (body : String)
  | rawWrapped (body : String)
deriving DecidableEq, Repr

/-- Non-streaming success rendering from the proxy handler. -/
def nonStreamSuccessReturn (contentType body : String) : NonStreamReturn :=
  if containsSub contentType "json" then .jsonBody body else .rawWrapped body

/-! ## Account pool (src/waf_proxy.py) -/

/-- One account record as read from the accounts file. Absent name or email
keys are modelled with Option; a missing api_key reads as the empty string
(the Python default), and a missing enabled key reads as true. -/
structure Account where
  name : Option String
  email : Option String
  api_key : String
  enabled : Bool
deriving DecidableEq, Repr

/-- acc.get with the fallback chain name, email, unknown. -/
def accountName (a : Account) : String :=
  a.name.getD (a.email.getD "unknown")

/-- Validity filter applied by load_accounts: the api_key is truthy, its
stripped form is non-empty, and the account is enabled. -/
def validAccount (a : Account) : Bool :=
  a.api_key != "" && a.api_key.trim.length > 0 && a.enabled

/-- load_accounts: when the accounts file exists its parsed content replaces
the account list after filtering; when it does not exist the function only
logs and the previous list is kept. -/
def load_accounts (fileExists : Bool) (data : List Account)
    (accounts : List Account) : List Account :=
  if fileExists then data.filter validAccount else accounts

/-- Per-account health record from the account_health dict. -/
structure AccountHealth where
  fail_count : Nat
  last_fail : Int
  disabled_until : Int
deriving DecidableEq, Repr

/-- The account_health dict, modelled as an association list. -/
abbrev HealthMap : Type := List (String × AccountHealth)

/-- Dictionary lookup in account_health. -/
def lookupHealth (m : HealthMap) (n : String) : Option AccountHealth :=
  match (List.find? (fun p => p.1 == n) m) with
  | none => none
  | some p => some p.2

/-- Dictionary write in account_health. -/
def setHealth (m : HealthMap) (n : String) (h : AccountHealth) : HealthMap :=
  (n, h) :: (List.filter (fun p => !(p.1 == n)) m)

/-- ACCOUNT_MAX_FAILS from waf_proxy.py. -/
def ACCOUNT_MAX_FAILS : Nat := 3

/-- ACCOUNT_DISABLE_DURATION in seconds. -/
def ACCOUNT_DISABLE_DURATION : Int := 300

/-- is_account_healthy: unknown accounts are healthy; otherwise unhealthy
exactly while a positive disabled_until lies in the future. -/
def is_account_healthy (m : HealthMap) (n : String) (now : Int) : Bool :=
  match lookupHealth m n with
  | none => true
  | some h => !(0 < h.disabled_until && now < h.disabled_until)

/-- record_account_failure: bump fail_count, stamp last_fail, and set the
disable window once the counter reaches ACCOUNT_MAX_FAILS. -/
def record_account_failure (m : HealthMap) (n : String) (now : Int) : HealthMap :=
  let h := (lookupHealth m n).getD { fail_count := 0, last_fail := 0, disabled_until := 0 }
  let fc := h.fail_count + 1
  setHealth m n
    { fail_count := fc,
      last_fail := now,
      disabled_until := if ACCOUNT_MAX_FAILS ≤ fc then now + ACCOUNT_DISABLE_DURATION
                        else h.disabled_until }

/-- record_account_success: reset the record to zero, but only for accounts
already present in the dict. -/
def record_account_success (m : HealthMap) (n : String) : HealthMap :=
  match lookupHealth m n with
  | none => m
  | some _ => setHealth m n { fail_count := 0, last_fail := 0, disabled_until := 0 }

/-- random.choice modelled by an arbitrary index supplied by the caller,
reduced modulo the list length. On a non-empty list this always returns an
element of the list. -/
def chooseAt (k : Nat) (l : List Account) : Option Account :=
  l.get? (k % l.length)

/-- The healthy list computed inside get_next_account: accounts that are
healthy right now and not in the exclusion list. -/
def eligibleAccounts (accounts : List Account) (m : HealthMap) (now : Int)
    (exclude : List String) : List Account :=
  accounts.filter
    (fun a => is_account_healthy m (accountName a) now && !(exclude.contains (accountName a)))

/-- The available list computed inside the degraded branch of
get_next_account: accounts merely not in the exclusion list. -/
def nonExcludedAccounts (accounts : List Account) (exclude : List String) : List Account :=
  accounts.filter (fun a => !(exclude.contains (accountName a)))

/-- get_next_account: random choice among healthy non-excluded accounts,
falling back to any non-excluded account when no healthy one remains, and
returning none only when even that set is empty. -/
def get_next_account (accounts : List Account) (m : HealthMap) (now : Int)
    (exclude : List String) (k : Nat) : Option Account :=
  if accounts.isEmpty then none
  else
    let healthy := eligibleAccounts accounts m now exclude
    if healthy.isEmpty then
      let available := nonExcludedAccounts accounts exclude
      if available.isEmpty then none else chooseAt k available
    else chooseAt k healthy

/-! ## Refresh failure handling (WAFCookieManager, do refresh internal) -/

/-- MAX_RETRIES local to do refresh internal. -/
def MAX_RETRIES : Nat := 2

/-- Browser-disconnect classification: substring match over the lowercased
error message, with the five literals from the source. -/
def isBrowserError (msg : String) : Bool :=
  let m := msg.toLower
  containsSub m "browser has been closed" ||
  containsSub m "target page" ||
  containsSub m "context" ||
  containsSub m "disconnected" ||
  containsSub m "connection refused"

/-- Outcome of one browser cookie fetch, supplied by an oracle indexed by the
retry counter. -/
inductive FetchOutcome where
  | fetched (cs : List (String × String))
  | failed (msg : String)
deriving DecidableEq, Repr

/-- What one recursion level of do refresh internal did: a successful fetch,
a failed fetch followed by a browser restart and another level, or a failed
fetch after which the function stopped retrying. -/
inductive RefreshRound where
  | ok
  | failRetry (msg : String)
  | failStop (msg : String)
deriving DecidableEq, Repr

/-- Result of the whole refresh: new cookies installed, stale cookies handed
back as the degraded fallback, or a raised error. -/
inductive RefreshResult where
  | refreshed (cs : List (String × String))
  | staleFallback (cs : List (String × String))
  | refreshError (msg : String)
deriving DecidableEq, Repr

/-- The non-retried failure tail of do refresh internal: stale cookies when
any are cached, otherwise a raised RuntimeError. -/
def refreshFallback (old : List (String × String)) (msg : String) : RefreshResult :=
  if old.isEmpty then .refreshError ("Failed to get WAF cookies: " ++ msg)
  else .staleFallback old

/-- The recursion of do refresh internal, with fetch and restart outcomes
supplied by oracles indexed by retry_count. A retry happens only for a
browser-classified error, only while retry_count < MAX_RETRIES, and only when
the browser restart itself succeeds; the fuel argument is always at least
MAX_RETRIES + 1 - retry_count at the call sites, so the fuel-exhausted branch
is unreachable from the entry point. -/
def do_refresh_go (fuel retry_count : Nat) (old : List (String × String))
    (fetch : Nat → FetchOutcome) (restartOk : Nat → Bool) :
    RefreshResult × List RefreshRound :=
  match fuel with
  | 0 => (.refreshError "out of fuel", [])
  | fuel + 1 =>
    match fetch retry_count with
    | .fetched cs => (.refreshed cs, [.ok])
    | .failed msg =>
      if isBrowserError msg && decide (retry_count < MAX_RETRIES) then
        if restartOk retry_count then
          let r := do_refresh_go fuel (retry_count + 1) old fetch restartOk
          (r.1, .failRetry msg :: r.2)
        else (refreshFallback old msg, [.failStop msg])
      else (refreshFallback old msg, [.failStop msg])

/-- do refresh internal entered with retry_count = 0, as called from the
single-flight path. -/
def do_refresh_internal (old : List (String × String))
    (fetch : Nat → FetchOutcome) (restartOk : Nat → Bool) :
    RefreshResult × List RefreshRound :=
  do_refresh_go (MAX_RETRIES + 1) 0 old fetch restartOk

/-! ## Single-flight refresh: cooperative-concurrency transition system

The asyncio tasks that can call refresh with lock (request handlers, the
background loop, pre-refresh tasks) are modelled by program counters; the
condition variable monitor is the lockHolder field, and is_refreshing is the
single-flight flag. Every await point of the source becomes a transition;
code between awaits is atomic under the single event loop. -/

/-- Program counter of one task with respect to the cookie refresh protocol. -/
inductive SFPC where
  | notStarted
  | start
  | acquired
  | waiting
  | fetching
  | done
deriving DecidableEq, Repr

/-- Shared state: the tasks, the condition monitor owner, and the
single-flight flag. -/
structure SFState where
  tasks : List SFPC
  lockHolder : Option Nat
  is_refreshing : Bool
deriving DecidableEq, Repr

/-- Program counter of task i. -/
def taskAt (s : SFState) (i : Nat) : Option SFPC :=
  s.tasks.get? i

/-- Replace the program counter of task i. -/
def setTask (s : SFState) (i : Nat) (p : SFPC) : SFState :=
  { s with tasks := s.tasks.set i p }

/-- One cooperative step. spawn models get_cookies creating a pre-refresh
task or a new caller entering refresh with lock; acquire and wakeup model the
monitor acquisition at the async-with and after condition wait; observe
models the while is_refreshing loop parking the caller; timeoutReturn models
the 120 s wait timeout returning stale cookies or raising (reacquire, return,
release collapse into one atomic step); returnValid models the double check
finding valid cookies; beginRefresh and finishRefresh bracket do refresh
internal, which runs entirely while holding the monitor, with the flag set at
its entry and cleared with a broadcast in its finally block. -/
inductive SFStep : SFState → SFState → Prop where
  | spawn (s : SFState) (i : Nat) :
      taskAt s i = some .notStarted →
      SFStep s (setTask s i .start)
  | acquire (s : SFState) (i : Nat) :
      taskAt s i = some .start → s.lockHolder = none →
      SFStep s { setTask s i .acquired with lockHolder := some i }
  | observe (s : SFState) (i : Nat) :
      taskAt s i = some .acquired → s.lockHolder = some i →
      s.is_refreshing = true →
      SFStep s { setTask s i .waiting with lockHolder := none }
  | wakeup (s : SFState) (i : Nat) :
      taskAt s i = some .waiting → s.lockHolder = none →
      SFStep s { setTask s i .acquired with lockHolder := some i }
  | timeoutReturn (s : SFState) (i : Nat) :
      taskAt s i = some .waiting → s.lockHolder = none →
      SFStep s (setTask s i .done)
  | returnValid (s : SFState) (i : Nat) :
      taskAt s i = some .acquired → s.lockHolder = some i →
      s.is_refreshing = false →
      SFStep s { setTask s i .done with lockHolder := none }
  | beginRefresh (s : SFState) (i : Nat) :
      taskAt s i = some .acquired → s.lockHolder = some i →
      s.is_refreshing = false →
      SFStep s { setTask s i .fetching with is_refreshing := true }
  | finishRefresh (s : SFState) (i : Nat) :
      taskAt s i = some .fetching → s.lockHolder = some i →
      SFStep s { setTask s i .done with lockHolder := none, is_refreshing := false }

/-- Reflexive-transitive closure of SFStep from a given initial state. -/
inductive SFReach (init : SFState) : SFState → Prop where
  | refl : SFReach init init
  | tail (s s' : SFState) : SFReach init s → SFStep s s' → SFReach init s'

/-- Initial state with n tasks, free monitor, flag clear. -/
def initSF (n : Nat) : SFState :=
  { tasks := List.replicate n .notStarted, lockHolder := none, is_refreshing := false }

/-- Number of tasks currently executing a browser cookie fetch. -/
def fetchCount (s : SFState) : Nat :=
  s.tasks.countP (fun p => p == .fetching)

/-- The lock discipline: a fetching task owns the monitor. -/
def SFInv (s : SFState) : Prop :=
  ∀ i, taskAt s i = some .fetching → s.lockHolder = some i

/-! ## List helper lemmas -/

lemma get?_set_self {α : Type} (l : List α) (i : Nat) (a b : α)
    (h : l.get? i = some b) : (l.set i a).get? i = some a := by
  induction l generalizing i with
  | nil => simp at h
  | cons x xs ih =>
    cases i with
    | zero => simp
    | succ n => simpa using ih n (by simpa using h)

lemma get?_set_ne {α : Type} (l : List α) (i j : Nat) (a : α) (h : i ≠ j) :
    (l.set i a).get? j = l.get? j := by
  induction l generalizing i j with
  | nil => simp
  | cons x xs ih =>
    cases i with
    | zero =>
      cases j with
      | zero => exact absurd rfl h
      | succ m => simp
    | succ n =>
      cases j with
      | zero => simp
      | succ m => simpa using ih n m (by omega)

lemma countP_le_one_of_unique {α : Type} (p : α → Bool) (l : List α)
    (h : ∀ i j x y, l.get? i = some x → p x = true → l.get? j = some y →
      p y = true → i = j) :
    l.countP p ≤ 1 := by
  induction l with
  | nil => simp
  | cons a t ih =>
    by_cases hpa : p a = true
    · have htail : t.countP p = 0 := by
        apply List.countP_eq_zero.mpr
        intro x hx hpx
        obtain ⟨⟨n, hnlt⟩, hn⟩ := List.mem_iff_get.mp hx
        have hn2 : t.get? n = some x := by
          rw [List.get?_eq_get hnlt, hn]
        have : (0 : Nat) = n + 1 :=
          h 0 (n + 1) a x rfl hpa (by simpa using hn2) hpx
        omega
      simp [List.countP_cons, hpa, htail]
    · have hle := ih (fun i j x y hi hpi hj hpj => by
        have := h (i + 1) (j + 1) x y (by simpa using hi) hpi (by simpa using hj) hpj
        omega)
      simp only [List.countP_cons, hpa]
      simpa using hle

/-! ## Site router lemmas and claims C5, C6 -/

lemma sites_length_pos : 0 < SITES.length := by decide

lemma max_site_fails_pos : 0 < MAX_SITE_FAILS := by decide

lemma siteInv_applySiteOp (s : SiteRouterState) (op : SiteOp) (h : siteInv s) :
    siteInv (applySiteOp s op) := by
  obtain ⟨hc, hi⟩ := h
  cases op with
  | fail =>
    show siteInv (record_site_failure s)
    unfold record_site_failure switch_to_next_site
    by_cases hm : MAX_SITE_FAILS ≤ s.site_fail_count + 1
    · rw [if_pos hm]
      exact ⟨max_site_fails_pos, Nat.mod_lt _ sites_length_pos⟩
    · rw [if_neg hm]
      exact ⟨show s.site_fail_count + 1 < MAX_SITE_FAILS by omega, hi⟩
  | success =>
    exact ⟨max_site_fails_pos, hi⟩
  | switchNext =>
    exact ⟨max_site_fails_pos, Nat.mod_lt _ sites_length_pos⟩
  | recoverPrimary =>
    exact ⟨max_site_fails_pos, sites_length_pos⟩
  | winner start tried =>
    show siteInv (record_winner s ((start + tried) % SITES.length))
    unfold record_winner record_site_success
    by_cases he : (start + tried) % SITES.length = s.current_site_index
    · rw [if_neg (by simpa using he)]
      exact ⟨max_site_fails_pos, hi⟩
    · rw [if_pos he]
      exact ⟨max_site_fails_pos, Nat.mod_lt _ sites_length_pos⟩

lemma siteInv_runSiteOps_aux (ops : List SiteOp) :
    ∀ s : SiteRouterState, siteInv s → siteInv (ops.foldl applySiteOp s) := by
  induction ops with
  | nil => intro s h; exact h
  | cons op rest ih =>
    intro s h
    exact ih (applySiteOp s op) (siteInv_applySiteOp s op h)

lemma record_winner_spec (s : SiteRouterState) (i : Nat) :
    (record_winner s i).current_site_index = i ∧
    (record_winner s i).site_fail_count = 0 := by
  unfold record_winner record_site_success
  by_cases he : i = s.current_site_index
  · simp [he]
  · simp [he]

/-- C6: record_site_failure increments the consecutive-fail counter and, on
reaching MAX_SITE_FAILS = 3, advances current_site_index by one modulo the
number of sites and resets the counter to 0; and after any sequence of
site-router operations starting from the initial state, the counter is below
MAX_SITE_FAILS and the index is within range. -/
theorem site_failure_accounting :
    (∀ s : SiteRouterState, record_site_failure s =
      if MAX_SITE_FAILS ≤ s.site_fail_count + 1 then
        { current_site_index := (s.current_site_index + 1) % SITES.length,
          site_fail_count := 0 }
      else { s with site_fail_count := s.site_fail_count + 1 }) ∧
    (∀ ops : List SiteOp, siteInv (runSiteOps ops)) := by
  constructor
  · intro s
    unfold record_site_failure switch_to_next_site
    by_cases hm : MAX_SITE_FAILS ≤ s.site_fail_count + 1
    · simp only [if_pos hm]
    · simp only [if_neg hm]
  · intro ops
    exact siteInv_runSiteOps_aux ops _ ⟨max_site_fails_pos, sites_length_pos⟩

/-- C5: whenever an attempt is classified as a success, the per-attempt state
update leaves current_site_index equal to the index of the winning site and
the consecutive-fail counter at 0, for every prior router state. -/
theorem sticky_winner (st : SiteRouterState) (start tried : Nat)
    (isStream needWaf : Bool) (contentType : String) (statusCode : Nat)
    (body : String) (attempt maxRetries : Nat)
    (h : classifyResponse isStream needWaf contentType statusCode body attempt maxRetries
           = RespClass.success) :
    (attemptSiteUpdate st start tried
       (classifyResponse isStream needWaf contentType statusCode body attempt maxRetries)).current_site_index
        = (start + tried) % SITES.length ∧
    (attemptSiteUpdate st start tried
       (classifyResponse isStream needWaf contentType statusCode body attempt maxRetries)).site_fail_count
        = 0 := by
  rw [h]
  exact record_winner_spec st ((start + tried) % SITES.length)

/-- Witness for sticky_winner: a JSON 200 response on the second site while
the router still points at the first. -/
theorem sticky_winner_witness :
    (attemptSiteUpdate { current_site_index := 0, site_fail_count := 2 } 1 0
       (classifyResponse false false "application/json" 200 "\x7b\x7d" 0 2)).current_site_index
        = (1 + 0) % SITES.length ∧
    (attemptSiteUpdate { current_site_index := 0, site_fail_count := 2 } 1 0
       (classifyResponse false false "application/json" 200 "\x7b\x7d" 0 2)).site_fail_count
        = 0 :=
  sticky_winner { current_site_index := 0, site_fail_count := 2 } 1 0
    false false "application/json" 200 "\x7b\x7d" 0 2 (by decide)

/-! ## Claims C1 and C2: cookie state function and get_cookies behavior -/

/-- C2: the state property computed by the code coincides with the pure
function described by the spec for every combination of cookie presence,
clock value, expiry instant, refresh-before window and in-flight flag, and a
VALID observation implies the cookies are not yet expired (I-COHO). -/
theorem cookie_state_matches_spec (rb : Int) (st : CMState) (now : Int) :
    cookieState rb st now =
      cookieStateSpec rb (!st.cookies.isEmpty) now st.expire_time st.is_refreshing ∧
    (cookieState rb st now = CookieState.VALID → now < st.expire_time) := by
  constructor
  · unfold cookieState cookieStateSpec
    by_cases hr : st.is_refreshing
    · simp [hr]
    · simp only [hr, Bool.false_eq_true, if_neg, if_false]
      by_cases hc : st.cookies.isEmpty
      · simp [hc]
      · simp only [hc, Bool.not_false, if_neg, Bool.false_eq_true, if_false, if_true,
          Bool.not_eq_true]
        by_cases he : st.expire_time ≤ now
        · simp [he]
        · have hlt : now < st.expire_time := by omega
          by_cases hw : st.expire_time - rb ≤ now
          · simp [he, hw, hlt]
          · simp [he, hw, hlt]
  · intro hv
    unfold cookieState at hv
    by_cases hr : st.is_refreshing
    · simp [hr] at hv
    · by_cases hc : st.cookies.isEmpty
      · simp [hr, hc] at hv
      · by_cases he : st.expire_time ≤ now
        · simp [hr, hc, he] at hv
        · omega

/-- Witness for cookie_state_matches_spec at a concrete VALID entry. -/
theorem cookie_state_matches_spec_witness :
    cookieState 600
      { cookies := [("acw_tc", "v")], expire_time := 1000, is_refreshing := false,
        pre_refresh_pending := false, cache_hits := 0, cache_misses := 0 } 0 =
      cookieStateSpec 600 true 0 1000 false ∧
    (0 : Int) < 1000 :=
  have h := cookie_state_matches_spec 600
    { cookies := [("acw_tc", "v")], expire_time := 1000, is_refreshing := false,
      pre_refresh_pending := false, cache_hits := 0, cache_misses := 0 } 0
  ⟨h.1, h.2 (by decide)⟩

/-- C1: the branch selected by get_cookies is driven by the state: VALID
returns the cached map as a hit with no refresh activity, EXPIRING returns
the current map while scheduling a background refresh exactly when neither a
refresh nor a pre-refresh task is in flight, and EMPTY or EXPIRED falls
through to the synchronous single-flight refresh. -/
theorem get_cookies_state_driven (rb : Int) (st : CMState) (now : Int) :
    (cookieState rb st now = CookieState.VALID →
       get_cookies_step rb st now =
         (GetAction.cacheHit st.cookies, { st with cache_hits := st.cache_hits + 1 })) ∧
    (cookieState rb st now = CookieState.EXPIRING →
       ∃ b, (get_cookies_step rb st now).1 = GetAction.staleWithPreRefresh st.cookies b ∧
         (b = true ↔ (st.is_refreshing = false ∧ st.pre_refresh_pending = false)) ∧
         (get_cookies_step rb st now).2.cache_hits = st.cache_hits + 1) ∧
    ((cookieState rb st now = CookieState.EMPTY ∨
      cookieState rb st now = CookieState.EXPIRED) →
       get_cookies_step rb st now =
         (GetAction.syncRefresh, { st with cache_misses := st.cache_misses + 1 })) := by
  refine ⟨?_, ?_, ?_⟩
  · intro hv
    unfold get_cookies_step
    rw [hv]
  · intro hv
    unfold get_cookies_step
    rw [hv]
    refine ⟨!st.is_refreshing && !st.pre_refresh_pending, rfl, ?_, rfl⟩
    constructor
    · intro hb
      constructor
      · cases hcr : st.is_refreshing
        · rfl
        · rw [hcr] at hb; simp at hb
      · cases hcp : st.pre_refresh_pending
        · rfl
        · rw [hcp] at hb; simp at hb
    · intro ⟨h1, h2⟩
      rw [h1, h2]
      rfl
  · intro hv
    unfold get_cookies_step
    rcases hv with h | h
    · rw [h]
    · rw [h]

/-- Witness for get_cookies_state_driven at a concrete VALID entry. -/
theorem get_cookies_state_driven_witness :
    get_cookies_step 600
      { cookies := [("acw_tc", "v")], expire_time := 1000, is_refreshing := false,
        pre_refresh_pending := false, cache_hits := 0, cache_misses := 0 } 0 =
      (GetAction.cacheHit [("acw_tc", "v")],
       { cookies := [("acw_tc", "v")], expire_time := 1000, is_refreshing := false,
         pre_refresh_pending := false, cache_hits := 1, cache_misses := 0 }) :=
  (get_cookies_state_driven 600
    { cookies := [("acw_tc", "v")], expire_time := 1000, is_refreshing := false,
      pre_refresh_pending := false, cache_hits := 0, cache_misses := 0 } 0).1 (by decide)

/-! ## Claim C10: reload with a missing accounts file -/

/-- C10: when the accounts file does not exist, load_accounts leaves the
in-memory account list unchanged for every previous snapshot and any parsed
content, instead of clearing it. -/
theorem load_accounts_missing_file (data prev : List Account) :
    load_accounts false data prev = prev := rfl

/-! ## Claim C9: HTML responses and WAF challenges -/

/-- Counterexample to C9 as stated: a non-streaming upstream response with
Content-Type text/html and status 404 on the WAF-fronted primary is classified
as a success, and the non-streaming success path hands the HTML body to the
client wrapped as a raw-text JSON object, instead of treating it as a WAF
challenge. -/
theorem html_challenge_counterexample :
    classifyResponse false true "text/html; charset=utf-8" 404
        "<html>not found</html>" 0 4 = RespClass.success ∧
    containsSub "text/html; charset=utf-8" "text/html" = true ∧
    nonStreamSuccessReturn "text/html; charset=utf-8" "<html>not found</html>" =
      NonStreamReturn.rawWrapped "<html>not found</html>" := by
  decide

/-- C9 as amended: in the streaming path every text/html response is treated
as a WAF challenge (refresh-and-retry on a need_waf site, upstream fault
otherwise); in the non-streaming path this holds only when the status code is
200, and a non-streaming HTML response with any other success-class status
(not 401/403 and below 500) is classified as a success whose body is returned
to the client wrapped as raw text. -/
theorem html_challenge_amended (needWaf : Bool) (contentType : String)
    (statusCode : Nat) (body : String) (attempt maxRetries : Nat)
    (hct : containsSub contentType "text/html" = true) :
    (classifyResponse true needWaf contentType statusCode body attempt maxRetries =
       if needWaf then RespClass.wafRefreshRetry else RespClass.upstreamFault) ∧
    (statusCode = 200 →
       classifyResponse false needWaf contentType statusCode body attempt maxRetries =
         if needWaf then RespClass.wafRefreshRetry else RespClass.upstreamFault) ∧
    (statusCode ≠ 200 → statusCode ≠ 401 → statusCode ≠ 403 → statusCode < 500 →
       classifyResponse false needWaf contentType statusCode body attempt maxRetries =
         RespClass.success ∧
       (containsSub contentType "json" = false →
          nonStreamSuccessReturn contentType body = NonStreamReturn.rawWrapped body)) := by
  refine ⟨?_, ?_, ?_⟩
  · unfold classifyResponse
    rw [hct]
    simp
  · intro h200
    unfold classifyResponse
    rw [hct, h200]
    simp
  · intro h200 h401 h403 h500
    constructor
    · unfold classifyResponse
      rw [hct]
      have hb200 : (statusCode == 200) = false := by simp [h200]
      have hb401 : (statusCode == 401) = false := by simp [h401]
      have hb403 : (statusCode == 403) = false := by simp [h403]
      rw [hb200, hb401, hb403]
      simp only [Bool.false_eq_true, Bool.and_false, Bool.or_false, Bool.false_or,
        if_false, Bool.false_eq_true, not_false_eq_true, if_neg]
      rw [if_neg (by omega)]
    · intro hj
      unfold nonStreamSuccessReturn
      rw [hj]
      simp

/-- Witness for html_challenge_amended: an HTML response with status 200 on
the primary. -/
theorem html_challenge_amended_witness :
    (classifyResponse true true "text/html" 200 "" 0 4 =
       if true then RespClass.wafRefreshRetry else RespClass.upstreamFault) ∧
    (classifyResponse false true "text/html" 200 "" 0 4 =
       if true then RespClass.wafRefreshRetry else RespClass.upstreamFault) :=
  have h := html_challenge_amended true "text/html" 200 "" 0 4 (by decide)
  ⟨h.1, h.2.1 rfl⟩

/-! ## Claim C7: account selection -/

lemma chooseAt_mem (k : Nat) (l : List Account) (h : l ≠ []) :
    ∃ a, chooseAt k l = some a ∧ a ∈ l := by
  have hlen : 0 < l.length := List.length_pos.mpr h
  have hk : k % l.length < l.length := Nat.mod_lt _ hlen
  refine ⟨l.get ⟨k % l.length, hk⟩, ?_, List.get_mem l _ hk⟩
  unfold chooseAt
  exact List.get?_eq_get hk

lemma eligible_subset_nonExcluded (accounts : List Account) (m : HealthMap)
    (now : Int) (exclude : List String) (a : Account)
    (h : a ∈ eligibleAccounts accounts m now exclude) :
    a ∈ nonExcludedAccounts accounts exclude := by
  rw [eligibleAccounts, List.mem_filter] at h
  rw [nonExcludedAccounts, List.mem_filter]
  obtain ⟨hmem, hp⟩ := h
  refine ⟨hmem, ?_⟩
  rw [Bool.and_eq_true] at hp
  exact hp.2

/-- C7: get_next_account returns a member of the eligible-and-not-excluded
set whenever that set is nonempty, falls back to a non-excluded account when
it is empty but some non-excluded account exists, returns none exactly when
the non-excluded set is empty, and, while eligible accounts remain, the
selected account is always healthy. -/
theorem account_selection (accounts : List Account) (m : HealthMap) (now : Int)
    (exclude : List String) (k : Nat) :
    (eligibleAccounts accounts m now exclude ≠ [] →
       ∃ a, get_next_account accounts m now exclude k = some a ∧
            a ∈ eligibleAccounts accounts m now exclude) ∧
    (eligibleAccounts accounts m now exclude = [] →
     nonExcludedAccounts accounts exclude ≠ [] →
       ∃ a, get_next_account accounts m now exclude k = some a ∧
            a ∈ nonExcludedAccounts accounts exclude) ∧
    (get_next_account accounts m now exclude k = none ↔
       nonExcludedAccounts accounts exclude = []) ∧
    (∀ a, get_next_account accounts m now exclude k = some a →
       eligibleAccounts accounts m now exclude ≠ [] →
       is_account_healthy m (accountName a) now = true) := by
  by_cases hacc : accounts.isEmpty
  · have haccnil : accounts = [] := List.isEmpty_iff.mp hacc
    have hel : eligibleAccounts accounts m now exclude = [] := by
      rw [haccnil]; rfl
    have hne : nonExcludedAccounts accounts exclude = [] := by
      rw [haccnil]; rfl
    have hres : get_next_account accounts m now exclude k = none := by
      unfold get_next_account
      rw [if_pos hacc]
    refine ⟨fun h => absurd hel h, fun _ h => absurd hne h, ?_, ?_⟩
    · rw [hres, hne]; simp
    · intro a ha
      rw [hres] at ha
      exact absurd ha (by simp)
  · by_cases helig : (eligibleAccounts accounts m now exclude).isEmpty
    · have heln : eligibleAccounts accounts m now exclude = [] :=
        List.isEmpty_iff.mp helig
      by_cases havail : (nonExcludedAccounts accounts exclude).isEmpty
      · have hnen : nonExcludedAccounts accounts exclude = [] :=
          List.isEmpty_iff.mp havail
        have hres : get_next_account accounts m now exclude k = none := by
          unfold get_next_account
          rw [if_neg hacc, if_pos helig, if_pos havail]
        refine ⟨fun h => absurd heln h, fun _ h => absurd hnen h, ?_, ?_⟩
        · rw [hres, hnen]; simp
        · intro a ha
          rw [hres] at ha
          exact absurd ha (by simp)
      · have hnen : nonExcludedAccounts accounts exclude ≠ [] := by
          intro hx
          rw [hx] at havail
          exact havail rfl
        obtain ⟨a, hchoose, hmem⟩ := chooseAt_mem k _ hnen
        have hres : get_next_account accounts m now exclude k = some a := by
          unfold get_next_account
          rw [if_neg hacc, if_pos helig, if_neg havail]
          exact hchoose
        refine ⟨fun h => absurd heln h, fun _ _ => ⟨a, hres, hmem⟩, ?_, ?_⟩
        · rw [hres]
          constructor
          · intro hx; exact absurd hx (by simp)
          · intro hx; exact absurd hx hnen
        · intro b hb helne
          exact absurd heln helne
    · have heln : eligibleAccounts accounts m now exclude ≠ [] := by
        intro hx
        rw [hx] at helig
        exact helig rfl
      obtain ⟨a, hchoose, hmem⟩ := chooseAt_mem k _ heln
      have hres : get_next_account accounts m now exclude k = some a := by
        unfold get_next_account
        rw [if_neg hacc, if_neg helig]
        exact hchoose
      have hnonex : a ∈ nonExcludedAccounts accounts exclude :=
        eligible_subset_nonExcluded accounts m now exclude a hmem
      refine ⟨fun _ => ⟨a, hres, hmem⟩, fun h => absurd h heln, ?_, ?_⟩
      · rw [hres]
        constructor
        · intro hx; exact absurd hx (by simp)
        · intro hx
          exact absurd (List.ne_nil_of_mem hnonex) (by simp [hx])
      · intro b hb _
        rw [hres] at hb
        have hba : b = a := (Option.some.inj hb).symm
        rw [hba]
        rw [eligibleAccounts, List.mem_filter] at hmem
        have hp := hmem.2
        rw [Bool.and_eq_true] at hp
        exact hp.1

/-- Witness for account_selection: one healthy account, empty health map, no
exclusions. -/
theorem account_selection_witness :
    ∃ a, get_next_account
        [{ name := some "A", email := none, api_key := "k1", enabled := true }]
        [] 0 [] 0 = some a ∧
      a ∈ eligibleAccounts
        [{ name := some "A", email := none, api_key := "k1", enabled := true }]
        [] 0 [] :=
  (account_selection
    [{ name := some "A", email := none, api_key := "k1", enabled := true }]
    [] 0 [] 0).1 (by decide)

/-! ## Claim C8: account disablement lifecycle -/

lemma lookupHealth_setHealth_self (m : HealthMap) (n : String) (h : AccountHealth) :
    lookupHealth (setHealth m n h) n = some h := by
  unfold lookupHealth setHealth
  simp [List.find?]

/-- Health map for an account that has just failed twice at time 0. -/
def c8TwoFails : HealthMap :=
  record_account_failure (record_account_failure [] "A" 0) "A" 0

/-- Health map for an account whose third failure at time 0 disabled it. -/
def c8ThreeFails : HealthMap :=
  record_account_failure c8TwoFails "A" 0

/-- Counterexample to C8 as stated: after the third failure at time 0 the
account is disabled until 300; at time 301 it is healthy again, yet its
fail_count is still 3 rather than zero, so the counters are not fresh when
eligibility returns. -/
theorem account_reenable_counterexample :
    is_account_healthy c8ThreeFails "A" 301 = true ∧
    (lookupHealth c8ThreeFails "A").map AccountHealth.fail_count = some 3 ∧
    (lookupHealth c8ThreeFails "A").map AccountHealth.fail_count ≠ some 0 := by
  decide

/-- C8 as amended: when a failure recorded at time t raises fail_count to
ACCOUNT_MAX_FAILS = 3, the record becomes (3, t, t + 300); the account is
unhealthy for every now below t + 300 (so, by account_selection, it receives
no work while an eligible account remains: it never appears in the eligible
set), and healthy again from t + 300 on — but with fail_count still latched
at 3; the counters are zeroed only by the next recorded success. -/
theorem account_disable_lifecycle (m : HealthMap) (n : String) (t : Int)
    (h2 : ((lookupHealth m n).getD
      { fail_count := 0, last_fail := 0, disabled_until := 0 }).fail_count = 2)
    (ht : 0 ≤ t) :
    lookupHealth (record_account_failure m n t) n =
      some { fail_count := 3, last_fail := t, disabled_until := t + 300 } ∧
    (∀ now : Int, now < t + 300 →
       is_account_healthy (record_account_failure m n t) n now = false) ∧
    (∀ now : Int, t + 300 ≤ now →
       is_account_healthy (record_account_failure m n t) n now = true) ∧
    (∀ (accounts : List Account) (exclude : List String) (now : Int),
       now < t + 300 →
       ∀ a ∈ eligibleAccounts accounts (record_account_failure m n t) now exclude,
         accountName a ≠ n) ∧
    lookupHealth (record_account_success (record_account_failure m n t) n) n =
      some { fail_count := 0, last_fail := 0, disabled_until := 0 } := by
  have hrec : lookupHealth (record_account_failure m n t) n =
      some { fail_count := 3, last_fail := t, disabled_until := t + 300 } := by
    simp only [record_account_failure]
    rw [h2]
    rw [if_pos (show ACCOUNT_MAX_FAILS ≤ 2 + 1 by decide)]
    exact lookupHealth_setHealth_self m n _
  have hdisab : ∀ now : Int, now < t + 300 →
      is_account_healthy (record_account_failure m n t) n now = false := by
    intro now hnow
    unfold is_account_healthy
    rw [hrec]
    show (!(decide ((0 : Int) < t + 300) && decide (now < t + 300))) = false
    rw [decide_eq_true (show (0 : Int) < t + 300 by omega), decide_eq_true hnow]
    rfl
  refine ⟨hrec, hdisab, ?_, ?_, ?_⟩
  · intro now hnow
    unfold is_account_healthy
    rw [hrec]
    show (!(decide ((0 : Int) < t + 300) && decide (now < t + 300))) = true
    rw [decide_eq_false (show ¬ now < t + 300 by omega)]
    simp
  · intro accounts exclude now hnow a hmem
    intro heq
    rw [eligibleAccounts, List.mem_filter] at hmem
    have hp := hmem.2
    rw [Bool.and_eq_true] at hp
    have hhealth := hp.1
    rw [heq] at hhealth
    rw [hdisab now hnow] at hhealth
    exact Bool.false_ne_true hhealth
  · unfold record_account_success
    rw [hrec]
    exact lookupHealth_setHealth_self _ n _

/-- Witness for account_disable_lifecycle: the third failure of account A at
time 0. -/
theorem account_disable_lifecycle_witness :
    lookupHealth (record_account_failure c8TwoFails "A" 0) "A" =
      some { fail_count := 3, last_fail := 0, disabled_until := 0 + 300 } ∧
    is_account_healthy (record_account_failure c8TwoFails "A" 0) "A" 100 = false ∧
    is_account_healthy (record_account_failure c8TwoFails "A" 0) "A" 301 = true :=
  have h := account_disable_lifecycle c8TwoFails "A" 0 (by decide) (by decide)
  ⟨h.1, h.2.1 100 (by decide), h.2.2.1 301 (by decide)⟩

/-! ## Claim C4: refresh failure classification and retries -/

lemma do_refresh_go_spec (fuel : Nat) :
    ∀ (rc : Nat) (old : List (String × String)) (fetch : Nat → FetchOutcome)
      (restartOk : Nat → Bool),
      rc ≤ MAX_RETRIES → MAX_RETRIES < rc + fuel →
      ∃ retries final,
        (do_refresh_go fuel rc old fetch restartOk).2 = retries ++ [final] ∧
        retries.length + rc ≤ MAX_RETRIES ∧
        (∀ x ∈ retries, ∃ msg, x = RefreshRound.failRetry msg ∧
          isBrowserError msg = true) ∧
        (final = RefreshRound.ok →
          ∃ cs, (do_refresh_go fuel rc old fetch restartOk).1 =
            RefreshResult.refreshed cs) ∧
        (∀ msg, final = RefreshRound.failStop msg →
          (do_refresh_go fuel rc old fetch restartOk).1 = refreshFallback old msg) ∧
        (∀ msg, final ≠ RefreshRound.failRetry msg) := by
  induction fuel with
  | zero =>
    intro rc old fetch restartOk hrc hfuel
    omega
  | succ fuel ih =>
    intro rc old fetch restartOk hrc hfuel
    cases hf : fetch rc with
    | fetched cs =>
      refine ⟨[], .ok, ?_, by simpa using hrc, by simp, ?_, ?_, ?_⟩
      · simp [do_refresh_go, hf]
      · intro _
        refine ⟨cs, ?_⟩
        simp [do_refresh_go, hf]
      · intro msg hmsg
        exact absurd hmsg (by simp)
      · intro msg hmsg
        exact absurd hmsg (by simp)
    | failed msg =>
      by_cases hb : (isBrowserError msg && decide (rc < MAX_RETRIES)) = true
      · by_cases hr : restartOk rc = true
        · have hrclt : rc < MAX_RETRIES := by
            have := (Bool.and_eq_true _ _).mp hb
            exact of_decide_eq_true this.2
          obtain ⟨retries, final, h1, h2, h3, h4, h5, h6⟩ :=
            ih (rc + 1) old fetch restartOk (by omega) (by omega)
          have hgo : do_refresh_go (fuel + 1) rc old fetch restartOk =
              ((do_refresh_go fuel (rc + 1) old fetch restartOk).1,
               RefreshRound.failRetry msg ::
                 (do_refresh_go fuel (rc + 1) old fetch restartOk).2) := by
            simp [do_refresh_go, hf, hb, hr]
          refine ⟨RefreshRound.failRetry msg :: retries, final, ?_, by
            simp only [List.length_cons]; omega, ?_, ?_, ?_, h6⟩
          · rw [hgo]
            simp only [h1, List.cons_append]
          · intro x hx
            rcases List.mem_cons.mp hx with hx | hx
            · refine ⟨msg, hx, ?_⟩
              have := (Bool.and_eq_true _ _).mp hb
              exact this.1
            · exact h3 x hx
          · intro hfin
            obtain ⟨cs, hcs⟩ := h4 hfin
            refine ⟨cs, ?_⟩
            rw [hgo]
            exact hcs
          · intro msg2 hfin
            rw [hgo]
            exact h5 msg2 hfin
        · have hgo : do_refresh_go (fuel + 1) rc old fetch restartOk =
              (refreshFallback old msg, [RefreshRound.failStop msg]) := by
            simp [do_refresh_go, hf, hb, hr]
          refine ⟨[], .failStop msg, ?_, by simpa using hrc, by simp, ?_, ?_, ?_⟩
          · rw [hgo]
            simp
          · intro hmsg
            exact absurd hmsg (by simp)
          · intro msg2 hmsg
            have hmm : msg = msg2 := by
              injection hmsg
            rw [hgo, ← hmm]
          · intro msg2 hmsg
            exact absurd hmsg (by simp)
      · have hgo : do_refresh_go (fuel + 1) rc old fetch restartOk =
            (refreshFallback old msg, [RefreshRound.failStop msg]) := by
          simp [do_refresh_go, hf, hb]
        refine ⟨[], .failStop msg, ?_, by simpa using hrc, by simp, ?_, ?_, ?_⟩
        · rw [hgo]
          simp
        · intro hmsg
          exact absurd hmsg (by simp)
        · intro msg2 hmsg
          have hmm : msg = msg2 := by
            injection hmsg
          rw [hgo, ← hmm]
        · intro msg2 hmsg
          exact absurd hmsg (by simp)

/-- C4: a run of do refresh internal consists of at most MAX_RETRIES = 2
retried fetch failures, each retried only because its message matched a
browser-disconnect substring (after which the browser is restarted and the
fetch re-run), followed by one final round: a successful fetch installs the
new cookies, while a failure that is not retried hands back the previously
cached stale cookie map when one is present and otherwise raises an error to
the caller. The single-flight flag stays set for the whole run: in the
transition system below the entire call occupies one fetching phase. -/
theorem refresh_retry_policy (old : List (String × String))
    (fetch : Nat → FetchOutcome) (restartOk : Nat → Bool) :
    ∃ retries final,
      (do_refresh_internal old fetch restartOk).2 = retries ++ [final] ∧
      retries.length ≤ MAX_RETRIES ∧
      (∀ x ∈ retries, ∃ msg, x = RefreshRound.failRetry msg ∧
        isBrowserError msg = true) ∧
      (final = RefreshRound.ok →
        ∃ cs, (do_refresh_internal old fetch restartOk).1 =
          RefreshResult.refreshed cs) ∧
      (∀ msg, final = RefreshRound.failStop msg →
        (old ≠ [] → (do_refresh_internal old fetch restartOk).1 =
           RefreshResult.staleFallback old) ∧
        (old = [] → (do_refresh_internal old fetch restartOk).1 =
           RefreshResult.refreshError ("Failed to get WAF cookies: " ++ msg))) ∧
      (∀ msg, final ≠ RefreshRound.failRetry msg) := by
  obtain ⟨retries, final, h1, h2, h3, h4, h5, h6⟩ :=
    do_refresh_go_spec (MAX_RETRIES + 1) 0 old fetch restartOk (by decide) (by omega)
  refine ⟨retries, final, h1, by omega, h3, h4, ?_, h6⟩
  intro msg hmsg
  have hfb := h5 msg hmsg
  constructor
  · intro hold
    show (do_refresh_go (MAX_RETRIES + 1) 0 old fetch restartOk).1 =
      RefreshResult.staleFallback old
    rw [hfb]
    unfold refreshFallback
    rw [if_neg (by simpa using hold)]
  · intro hold
    show (do_refresh_go (MAX_RETRIES + 1) 0 old fetch restartOk).1 =
      RefreshResult.refreshError ("Failed to get WAF cookies: " ++ msg)
    rw [hfb]
    unfold refreshFallback
    rw [if_pos (by simpa using hold)]

/-! ## Claim C3: single-flight invariant proofs -/

lemma fetching_after_set {tasks : List SFPC} {i j : Nat} {p : SFPC}
    (hp : p ≠ SFPC.fetching)
    (hj : (tasks.set i p).get? j = some SFPC.fetching) :
    j ≠ i ∧ tasks.get? j = some SFPC.fetching := by
  by_cases hij : j = i
  · subst hij
    cases hg : tasks.get? j with
    | none =>
      have hnone : (tasks.set j p).get? j = none := by
        rw [List.get?_eq_none] at hg ⊢
        simpa using hg
      rw [hnone] at hj
      exact absurd hj (by simp)
    | some q =>
      have hself := get?_set_self tasks j p q hg
      rw [hself] at hj
      exact absurd (Option.some.inj hj) hp
  · refine ⟨hij, ?_⟩
    rw [← get?_set_ne tasks i j p (fun h => hij h.symm)]
    exact hj

lemma sfinv_init (n : Nat) : SFInv (initSF n) := by
  intro j hj
  have hmem : SFPC.fetching ∈ List.replicate n SFPC.notStarted := List.get?_mem hj
  have := List.eq_of_mem_replicate hmem
  exact absurd this (by simp)

lemma sfinv_step {s s' : SFState} (hstep : SFStep s s') (hinv : SFInv s) :
    SFInv s' := by
  cases hstep with
  | spawn i hpc =>
    intro j hj
    have hj' : (s.tasks.set i SFPC.start).get? j = some SFPC.fetching := hj
    obtain ⟨_, hfetch⟩ := fetching_after_set (by simp) hj'
    exact hinv j hfetch
  | acquire i hpc hlock =>
    intro j hj
    have hj' : (s.tasks.set i SFPC.acquired).get? j = some SFPC.fetching := hj
    obtain ⟨_, hfetch⟩ := fetching_after_set (by simp) hj'
    have hcontra := hinv j hfetch
    rw [hlock] at hcontra
    exact absurd hcontra (by simp)
  | observe i hpc hlock href =>
    intro j hj
    have hj' : (s.tasks.set i SFPC.waiting).get? j = some SFPC.fetching := hj
    obtain ⟨hne, hfetch⟩ := fetching_after_set (by simp) hj'
    have h2 := hinv j hfetch
    rw [hlock] at h2
    exact absurd (Option.some.inj h2) (fun hh => hne hh.symm)
  | wakeup i hpc hlock =>
    intro j hj
    have hj' : (s.tasks.set i SFPC.acquired).get? j = some SFPC.fetching := hj
    obtain ⟨_, hfetch⟩ := fetching_after_set (by simp) hj'
    have hcontra := hinv j hfetch
    rw [hlock] at hcontra
    exact absurd hcontra (by simp)
  | timeoutReturn i hpc hlock =>
    intro j hj
    have hj' : (s.tasks.set i SFPC.done).get? j = some SFPC.fetching := hj
    obtain ⟨_, hfetch⟩ := fetching_after_set (by simp) hj'
    have hcontra := hinv j hfetch
    rw [hlock] at hcontra
    exact absurd hcontra (by simp)
  | returnValid i hpc hlock href =>
    intro j hj
    have hj' : (s.tasks.set i SFPC.done).get? j = some SFPC.fetching := hj
    obtain ⟨hne, hfetch⟩ := fetching_after_set (by simp) hj'
    have h2 := hinv j hfetch
    rw [hlock] at h2
    exact absurd (Option.some.inj h2) (fun hh => hne hh.symm)
  | beginRefresh i hpc hlock href =>
    intro j hj
    have hj' : (s.tasks.set i SFPC.fetching).get? j = some SFPC.fetching := hj
    by_cases hij : j = i
    · subst hij
      exact hlock
    · have hfetch : s.tasks.get? j = some SFPC.fetching := by
        rw [← get?_set_ne s.tasks i j SFPC.fetching (fun h => hij h.symm)]
        exact hj'
      have h2 := hinv j hfetch
      rw [hlock] at h2
      exact absurd (Option.some.inj h2) (fun hh => hij hh.symm)
  | finishRefresh i hpc hlock =>
    intro j hj
    have hj' : (s.tasks.set i SFPC.done).get? j = some SFPC.fetching := hj
    obtain ⟨hne, hfetch⟩ := fetching_after_set (by simp) hj'
    have h2 := hinv j hfetch
    rw [hlock] at h2
    exact absurd (Option.some.inj h2) (fun hh => hne hh.symm)

lemma sfinv_reach (init : SFState) (hinit : SFInv init) :
    ∀ s, SFReach init s → SFInv s := by
  intro s h
  induction h with
  | refl => exact hinit
  | tail s1 s2 hreach hstep ih => exact sfinv_step hstep ih

lemma fetchCount_le_one (s : SFState) (h : SFInv s) : fetchCount s ≤ 1 := by
  apply countP_le_one_of_unique
  intro i j x y hi hpi hj hpj
  have hx : x = SFPC.fetching := by simpa using hpi
  have hy : y = SFPC.fetching := by simpa using hpj
  rw [hx] at hi
  rw [hy] at hj
  have h1 : s.lockHolder = some i := h i hi
  have h2 : s.lockHolder = some j := h j hj
  rw [h1] at h2
  exact Option.some.inj h2

lemma idx_ne_of_pc_ne {s : SFState} {i j : Nat} {q : SFPC}
    (hpc : taskAt s i = some SFPC.acquired) (hj : taskAt s j = some q)
    (hq : q ≠ SFPC.acquired) : i ≠ j := by
  intro h
  subst h
  rw [hpc] at hj
  exact hq (Option.some.inj hj).symm

lemma other_task_unchanged {s : SFState} {i j : Nat} {p : SFPC} (hij : i ≠ j)
    (hpc : taskAt s i = some SFPC.acquired) :
    (s.tasks.set j p).get? i = some SFPC.acquired := by
  rw [get?_set_ne s.tasks j i p (fun h => hij h.symm)]
  exact hpc

/-- C3: in every state reachable from an initial state with any number of
tasks, at most one task is executing a browser cookie fetch; and a caller
that holds the monitor and observes the refresh flag set can only move to the
waiting queue (or be left untouched by a step of another task) — it never
starts a second concurrent fetch and never returns from inside the monitor
while the flag is set, except through the timeout path which leaves the
waiting queue with the existing cookies. -/
theorem single_flight_refresh :
    (∀ (n : Nat) (s : SFState), SFReach (initSF n) s → fetchCount s ≤ 1) ∧
    (∀ (s s' : SFState) (i : Nat), SFStep s s' →
       taskAt s i = some SFPC.acquired → s.is_refreshing = true →
       taskAt s' i = some SFPC.acquired ∨ taskAt s' i = some SFPC.waiting) := by
  constructor
  · intro n s hreach
    exact fetchCount_le_one s (sfinv_reach (initSF n) (sfinv_init n) s hreach)
  · intro s s' i hstep hpc href
    cases hstep with
    | spawn j hj =>
      have hij := idx_ne_of_pc_ne hpc hj (by simp)
      exact Or.inl (other_task_unchanged hij hpc)
    | acquire j hj hlock =>
      have hij := idx_ne_of_pc_ne hpc hj (by simp)
      exact Or.inl (other_task_unchanged hij hpc)
    | observe j hj hlock hrefj =>
      by_cases hij : i = j
      · subst hij
        right
        exact get?_set_self s.tasks i SFPC.waiting SFPC.acquired hpc
      · exact Or.inl (other_task_unchanged hij hpc)
    | wakeup j hj hlock =>
      have hij := idx_ne_of_pc_ne hpc hj (by simp)
      exact Or.inl (other_task_unchanged hij hpc)
    | timeoutReturn j hj hlock =>
      have hij := idx_ne_of_pc_ne hpc hj (by simp)
      exact Or.inl (other_task_unchanged hij hpc)
    | returnValid j hj hlock hrefj =>
      rw [href] at hrefj
      exact absurd hrefj (by simp)
    | beginRefresh j hj hlock hrefj =>
      rw [href] at hrefj
      exact absurd hrefj (by simp)
    | finishRefresh j hj hlock =>
      have hij := idx_ne_of_pc_ne hpc hj (by simp)
      exact Or.inl (other_task_unchanged hij hpc)

/-- Witness for single_flight_refresh: the two-task initial state, and one
parked observer of an in-flight refresh. -/
theorem single_flight_refresh_witness :
    fetchCount (initSF 2) ≤ 1 ∧
    (taskAt { tasks := [SFPC.waiting], lockHolder := none, is_refreshing := true } 0 =
       some SFPC.acquired ∨
     taskAt { tasks := [SFPC.waiting], lockHolder := none, is_refreshing := true } 0 =
       some SFPC.waiting) :=
  ⟨single_flight_refresh.1 2 (initSF 2) SFReach.refl,
   single_flight_refresh.2
     { tasks := [SFPC.acquired], lockHolder := some 0, is_refreshing := true }
     { tasks := [SFPC.waiting], lockHolder := none, is_refreshing := true } 0
     (SFStep.observe _ 0 rfl rfl rfl) rfl rfl⟩
